import Mathlib

/-!
A verification development for `ftp_cdr_tool.py` (class `DLRTool`): a shallow
embedding of its change detector (`get_file_attrs`, `ftp_list_callback`), its
record extractor and CSV ledger merger (`parse`), and the per-file loop of
`sync`, together with theorems about their behaviour.

Python strings are modelled as `List Char`; Python exceptions as an explicit
`Except PyErr` result.  All definitions are executable and kernel-reducible.
-/

set_option maxRecDepth 200000

/-- Python strings are modelled as lists of characters. -/
abbrev PyStr := List Char

/-- The Python exceptions the embedded code can raise. -/
inductive PyErr where
  | keyError
  | valueError
  | indexError
  | typeError
  | attrError
  deriving DecidableEq

/-- Equality of `Except` results is decidable when both component types have
decidable equality. -/
instance {ε α : Type} [DecidableEq ε] [DecidableEq α] : DecidableEq (Except ε α) := fun a b =>
  match a, b with
  | .error e, .error f =>
    if h : e = f then .isTrue (by rw [h]) else .isFalse (by intro hc; cases hc; exact h rfl)
  | .error _, .ok _ => .isFalse (by intro hc; cases hc)
  | .ok _, .error _ => .isFalse (by intro hc; cases hc)
  | .ok x, .ok y =>
    if h : x = y then .isTrue (by rw [h]) else .isFalse (by intro hc; cases hc; exact h rfl)

/-- Characters that Python's `str.split()` / `str.strip()` treat as whitespace. -/
def pyIsSpace (c : Char) : Bool :=
  c == ' ' || c == '\t' || c == '\n' || c == '\x0b' || c == '\x0c' || c == '\r'

/-- `str.strip()`: drop leading and trailing whitespace. -/
def pyStrip (s : PyStr) : PyStr :=
  ((s.dropWhile pyIsSpace).reverse.dropWhile pyIsSpace).reverse

/-- `str.rstrip(',')`: drop all trailing comma characters (line 255 of the source). -/
def rstripCommas (s : PyStr) : PyStr :=
  (s.reverse.dropWhile (fun c => c == ',')).reverse

/-- Helper for `wsTokens`: accumulate the current token (reversed) while scanning. -/
def wsTokensAux : PyStr → PyStr → List PyStr
  | [], acc => if acc.isEmpty then [] else [acc.reverse]
  | c :: rest, acc =>
    if pyIsSpace c then
      if acc.isEmpty then wsTokensAux rest []
      else acc.reverse :: wsTokensAux rest []
    else wsTokensAux rest (c :: acc)

/-- Python `str.split()` with no argument: split on runs of whitespace,
discarding empty tokens. -/
def wsTokens (s : PyStr) : List PyStr := wsTokensAux s []

/-- `sep` is a prefix of the second argument (`Bool`-valued). -/
def isPrefixL : PyStr → PyStr → Bool
  | [], _ => true
  | _ :: _, [] => false
  | a :: as, b :: bs => a == b && isPrefixL as bs

/-- Helper for `consFirst`: prepend a character to the first piece of a split result. -/
def consFirst (c : Char) : List PyStr → List PyStr
  | [] => [[c]]
  | h :: t => (c :: h) :: t

/-- Fuel-driven worker for `pySplit`.  The fuel is always at least the length of
the string, so the fuel-exhausted branch is never taken. -/
def pySplitAux (sep : PyStr) : Nat → PyStr → List PyStr
  | _, [] => [[]]
  | 0, s => [s]
  | fuel + 1, c :: rest =>
    if isPrefixL sep (c :: rest) then
      [] :: pySplitAux sep fuel (List.drop (sep.length - 1) rest)
    else
      consFirst c (pySplitAux sep fuel rest)

/-- Python `str.split(sep)` for a non-empty separator: split on each
(left-to-right, non-overlapping) occurrence of `sep`, keeping empty pieces. -/
def pySplit (sep s : PyStr) : List PyStr := pySplitAux sep s.length s

/-- Python `sub in s`: substring containment test. -/
def containsSub (sub : PyStr) : PyStr → Bool
  | [] => isPrefixL sub []
  | c :: rest => isPrefixL sub (c :: rest) || containsSub sub rest

/-- `str.replace(",", " ")` as called at lines 249 and 254 of the source:
every comma becomes a space. -/
def replaceComma (s : PyStr) : PyStr :=
  s.map (fun c => if c == ',' then ' ' else c)

/-- Lower-case an ASCII character (for the case-insensitive `strptime` match). -/
def lowerChar (c : Char) : Char :=
  if 'A' ≤ c ∧ c ≤ 'Z' then Char.ofNat (c.toNat + 32) else c

/-- Lower-case an ASCII string. -/
def lowerStr (s : PyStr) : PyStr := s.map lowerChar

/-- Decimal digit character of a value below 10. -/
def digitChar (n : Nat) : Char := Char.ofNat (48 + n)

/-- Fuel-driven decimal rendering of a natural number. -/
def natDigitsAux : Nat → Nat → PyStr
  | 0, _ => []
  | fuel + 1, n =>
    if n < 10 then [digitChar n]
    else natDigitsAux fuel (n / 10) ++ [digitChar (n % 10)]

/-- Decimal rendering of a natural number, as Python's `str` produces it. -/
def natDigits (n : Nat) : PyStr := natDigitsAux (n + 1) n

/-- Python `str(i)` for an integer. -/
def pyIntStr (n : Int) : PyStr :=
  if n < 0 then '-' :: natDigits n.natAbs else natDigits n.natAbs

/-- Numeric value of a decimal digit character, if it is one. -/
def digitVal (c : Char) : Option Nat :=
  if '0' ≤ c ∧ c ≤ '9' then some (c.toNat - 48) else none

/-- Helper for `digitsToNat`. -/
def digitsToNatAux : PyStr → Nat → Option Nat
  | [], acc => some acc
  | c :: rest, acc =>
    match digitVal c with
    | some d => digitsToNatAux rest (acc * 10 + d)
    | none => none

/-- Parse a non-empty all-digit string as a natural number. -/
def digitsToNat : PyStr → Option Nat
  | [] => none
  | c :: rest => digitsToNatAux (c :: rest) 0

/-- Python `int(s)`: optional surrounding whitespace, optional sign, digits;
raises `ValueError` otherwise. -/
def pyInt (s : PyStr) : Except PyErr Int :=
  match pyStrip s with
  | '+' :: ds =>
    match digitsToNat ds with
    | some n => .ok (n : Int)
    | none => .error .valueError
  | '-' :: ds =>
    match digitsToNat ds with
    | some n => .ok (-(n : Int))
    | none => .error .valueError
  | ds =>
    match digitsToNat ds with
    | some n => .ok (n : Int)
    | none => .error .valueError

/-! ## Timestamps

`time.strptime(s, "%a  %d %b %Y %H:%M:%S +0000")` as used at lines 244 and 249
of the source.  Python's `_strptime` matches the abbreviated weekday name and
month name case-insensitively, treats each whitespace run in the format as one
or more whitespace characters in the data, requires a four-digit year, bounds
the fields (day within the month, hour below 24, minute below 60, second below
62), validates the calendar date, and raises `ValueError` when any character of
the input remains unconsumed (so leading or trailing whitespace, a trailing
newline, or extra tokens all fail).

A Python-2 `struct_time` is a tuple subclass, so the comparison at line 250
of the source is lexicographic on all nine fields
(tm_year, tm_mon, tm_mday, tm_hour, tm_min, tm_sec, tm_wday, tm_yday,
tm_isdst).  When `%a` appears in the format, `_strptime` sets `tm_wday` from
the index of the parsed weekday name in the abbreviation list
(Monday = 0 … Sunday = 6) — it is not derived from the date — so two strings
naming the same date-time but different weekdays compare unequal.  `tm_yday`
is derived from the date fields and `tm_isdst` is the constant `-1`, so for
two values parsed with this format the order is exactly lexicographic on
(year, month, day, hour, minute, second, weekday), which is what the model
compares. -/

/-- The fields of a parsed timestamp that determine `struct_time` ordering:
the six date-time fields, then `tm_wday`, taken from the parsed `%a` weekday
name (the derived `tm_yday` and the constant `tm_isdst` cannot break a tie
these fields leave). -/
structure StructTime where
  year : Nat
  month : Nat
  day : Nat
  hour : Nat
  minute : Nat
  second : Nat
  wday : Nat
  deriving DecidableEq

/-- Python-2 `struct_time` comparison `a > b`: lexicographic on the tuple,
with `tm_wday` (from the parsed weekday name) as the live tie-breaker after
the six date-time fields. -/
def tsGt (a b : StructTime) : Bool :=
  if a.year ≠ b.year then decide (a.year > b.year)
  else if a.month ≠ b.month then decide (a.month > b.month)
  else if a.day ≠ b.day then decide (a.day > b.day)
  else if a.hour ≠ b.hour then decide (a.hour > b.hour)
  else if a.minute ≠ b.minute then decide (a.minute > b.minute)
  else if a.second ≠ b.second then decide (a.second > b.second)
  else decide (a.wday > b.wday)

/-- Abbreviated weekday names accepted by `%a` (lower-cased). -/
def weekdayAbbrs : List PyStr :=
  ["mon".toList, "tue".toList, "wed".toList, "thu".toList, "fri".toList,
   "sat".toList, "sun".toList]

/-- Abbreviated month names accepted by `%b` (lower-cased, in month order). -/
def monthAbbrs : List PyStr :=
  ["jan".toList, "feb".toList, "mar".toList, "apr".toList, "may".toList,
   "jun".toList, "jul".toList, "aug".toList, "sep".toList, "oct".toList,
   "nov".toList, "dec".toList]

/-- Month number of an abbreviated month name (case-insensitive). -/
def monthNum (s : PyStr) : Option Nat :=
  let i := monthAbbrs.indexOf (lowerStr s)
  if i < monthAbbrs.length then some (i + 1) else none

/-- Is this a leap year (Gregorian)? -/
def isLeapYear (y : Nat) : Bool :=
  y % 4 == 0 && (y % 100 != 0 || y % 400 == 0)

/-- Number of days in a month, as `datetime.date` validates it. -/
def daysInMonth (y m : Nat) : Nat :=
  if m = 2 then (if isLeapYear y then 29 else 28)
  else if m = 4 ∨ m = 6 ∨ m = 9 ∨ m = 11 then 30
  else 31

/-- A one- or two-digit number. -/
def num2 (s : PyStr) : Option Nat :=
  if s.length = 0 ∨ 2 < s.length then none else digitsToNat s

/-- An exactly-four-digit number (the `%Y` pattern). -/
def num4 (s : PyStr) : Option Nat :=
  if s.length = 4 then digitsToNat s else none

/-- The last character of a string (the string is known non-empty at use sites). -/
def lastCharD (s : PyStr) : Char := s.getLastD ' '

/-- `time.strptime(s, "%a  %d %b %Y %H:%M:%S +0000")`, returning `none` where
Python raises `ValueError`. -/
def strptimeDLR (s : PyStr) : Option StructTime :=
  match s with
  | [] => none
  | c :: _ =>
    if pyIsSpace c ∨ pyIsSpace (lastCharD s) then none
    else
      match wsTokens s with
      | [wd, d, mo, yr, hms, tz] =>
        let wi := weekdayAbbrs.indexOf (lowerStr wd)
        if wi < weekdayAbbrs.length ∧ tz = "+0000".toList then
          match num2 d, monthNum mo, num4 yr, pySplit ":".toList hms with
          | some dd, some mm, some yy, [hs, ms, ss] =>
            match num2 hs, num2 ms, num2 ss with
            | some hh, some mi, some se =>
              if 1 ≤ yy ∧ 1 ≤ dd ∧ dd ≤ daysInMonth yy mm ∧
                  hh ≤ 23 ∧ mi ≤ 59 ∧ se ≤ 61 then
                some ⟨yy, mm, dd, hh, mi, se, wi⟩
              else none
            | _, _, _ => none
          | _, _, _, _ => none
        else none
      | _ => none

/-! ## Values and records

CDR attribute values arrive from `json.loads`.  The values the tool's fields
carry are JSON strings, numbers and `null` (modelled below); `str()` and the
two code-translation tables act on them exactly as the Python does. -/

/-- A primitive Python value held in a CDR mapping. -/
inductive PyVal where
  | vstr (s : PyStr)
  | vint (n : Int)
  | vnone
  deriving DecidableEq

/-- Python `str(v)`. -/
def pyStr : PyVal → PyStr
  | .vstr s => s
  | .vint n => pyIntStr n
  | .vnone => "None".toList

/-- An association list standing for a Python dict with distinct keys. -/
abbrev PyDict := List (PyStr × PyVal)

/-- First-match lookup in an association list (`dict.get` on distinct keys). -/
def alookup {α : Type} : List (PyStr × α) → PyStr → Option α
  | [], _ => none
  | (k, v) :: rest, key => if k = key then some v else alookup rest key

/-- `dict.get(key, default)`. -/
def alookupD (d : PyDict) (k : PyStr) (dflt : PyVal) : PyVal :=
  (alookup d k).getD dflt

/-- The `statusCodes` table of the source (SMS status code to display text). -/
def statusCodes (n : Int) : Option PyStr :=
  if n = 0 then some "Delivered".toList
  else if n = -1 then some "Bad or Unsupported Phone Number".toList
  else if n = -2 then some "Carrier Error".toList
  else if n = -3 then some "Gateway Error".toList
  else if n = -4 then some "Exceeded Rate Limit".toList
  else if n = -5 then some "Duplicate Message".toList
  else if n = -7 then some "Blocked".toList
  else if n = -99 then some "Unknown".toList
  else none

/-- The `responseCodes` table of the source (HTTP-like code to display text). -/
def responseCodes (n : Int) : Option PyStr :=
  if n = 200 then some "OK".toList
  else if n = 400 then some "Bad Request".toList
  else if n = 401 then some "Not Authorized".toList
  else if n = 403 then some "Access Denied".toList
  else if n = 404 then some "Not Found".toList
  else if n = 405 then some "Method Not Allowed".toList
  else if n = 415 then some "Unsupported Media Type".toList
  else if n = 500 then some "Internal Server Error".toList
  else if n = 503 then some "Service Unavailable".toList
  else if n = 408 then some "User Unavailable".toList
  else if n = 484 then some "Number Unsupported".toList
  else if n = 487 then some "Request Terminated".toList
  else if n = -1 then some "Delivered Successfully".toList
  else none

/-- The `CDRAttributes` list of the source: the fixed, ordered attribute set
(the commented-out entries omitted, as in the source). -/
def CDRAttributes : List PyStr :=
  ["AccountID".toList,
   "ApplicationId".toList,
   "Called".toList,
   "Caller".toList,
   "Channel".toList,
   "DateCreated".toList,
   "DateUpdated".toList,
   "DeliveryStatus".toList,
   "Duration".toList,
   "EndTime".toList,
   "MessageBody".toList,
   "Network".toList,
   "ResponseCode".toList,
   "SessionID".toList,
   "StartTime".toList,
   "Status".toList,
   "StatusCode".toList]

/-- `self.date_field`. -/
def date_field : PyStr := "DateCreated".toList

/-- The `"StatusCode"` attribute key. -/
def statusCodeKey : PyStr := "StatusCode".toList

/-- The `"ResponseCode"` attribute key. -/
def responseCodeKey : PyStr := "ResponseCode".toList

/-- `self.date_compare_index = self.CDRAttributes.index(self.date_field)`. -/
def date_compare_index : Nat := CDRAttributes.indexOf date_field

/-- The code translation of lines 228-233: an integer `StatusCode` or
`ResponseCode` is looked up in the corresponding table, keeping the raw value
when absent; every other attribute value passes through unchanged. -/
def translateAttr (attr : PyStr) (v : PyVal) : PyVal :=
  if attr = statusCodeKey then
    match v with
    | .vint n => match statusCodes n with | some s => .vstr s | none => v
    | _ => v
  else if attr = responseCodeKey then
    match v with
    | .vint n => match responseCodes n with | some s => .vstr s | none => v
    | _ => v
  else v

/-- One attribute's contribution to `tempDictionary` (lines 226-233):
nothing when `cdr.get(attr)` is `None` (key absent or value null), otherwise
one binding carrying the translated value. -/
def attrEntry (fs : PyDict) (attr : PyStr) : PyDict :=
  match alookup fs attr with
  | none => []
  | some v => if v = .vnone then [] else [(attr, translateAttr attr v)]

/-- `tempDictionary` as built by the loop of lines 225-233, keyed in
`CDRAttributes` order. -/
def buildBody (fs : PyDict) : PyDict :=
  CDRAttributes.foldl (fun acc attr => acc ++ attrEntry fs attr) []

/-! ## Extraction (lines 205-213) -/

/-- A candidate value for `cdr_dict["call"]`: either a JSON primitive or an
object whose fields are primitives (the shape the tool's records take). -/
inductive JTop where
  | tprim (v : PyVal)
  | tobj (fs : PyDict)
  deriving DecidableEq

/-- The result of `json.loads` on a payload: a primitive, or an object whose
field values are `JTop`s. -/
inductive Parsed where
  | pprim (v : PyVal)
  | pobj (fs : List (PyStr × JTop))
  deriving DecidableEq

/-- The marker substring of line 209. -/
def marker : PyStr := "Submitting CDR [text=".toList

/-- The `"call"` key of line 213. -/
def callKey : PyStr := "call".toList

/-- The payload substring isolated at lines 210-211:
`line.split(marker)[1].strip()` with the final `]` character removed.
When the marker occurs in the line the split has at least two pieces, so the
`[1]` subscript cannot fail; `getD` supplies an unreachable default. -/
def payloadOf (line : PyStr) : PyStr :=
  (pyStrip ((pySplit marker line).getD 1 [])).dropLast

/-- One line of the extraction loop (lines 208-213), parameterised by
`loads`, the behaviour of Python's `json.loads` on payload strings.
A payload that is not an object makes `cdr_dict["call"]` a subscript on a
non-dict (`TypeError`); an object without the `"call"` key raises `KeyError`. -/
def extractStep (loads : PyStr → Except PyErr Parsed) (acc : List JTop)
    (line : PyStr) : Except PyErr (List JTop) :=
  if containsSub marker line then
    match loads (payloadOf line) with
    | .error e => .error e
    | .ok (.pprim _) => .error .typeError
    | .ok (.pobj fs) =>
      match alookup fs callKey with
      | some c => .ok (acc ++ [c])
      | none => .error .keyError
  else .ok acc

/-- The extraction loop over a file's lines. -/
def extractLoop (loads : PyStr → Except PyErr Parsed) (acc : List JTop) :
    List PyStr → Except PyErr (List JTop)
  | [] => .ok acc
  | l :: ls =>
    match extractStep loads acc l with
    | .error e => .error e
    | .ok acc2 => extractLoop loads acc2 ls

/-- `CDRs` as collected by lines 201-213 from a file's lines. -/
def extractCDRs (loads : PyStr → Except PyErr Parsed) (lines : List PyStr) :
    Except PyErr (List JTop) :=
  extractLoop loads [] lines

/-! ## The ledger merge (lines 215-256)

The CSV ledger file is modelled as its `readlines()` view: a list of lines,
each including its trailing newline (every write the tool performs ends in a
newline). -/

/-- `tempDictionary` construction for one extracted CDR: subscripting a
non-dict record with `.get` raises `AttributeError`. -/
def buildTempDict : JTop → Except PyErr PyDict
  | .tprim _ => .error .attrError
  | .tobj fs => .ok (buildBody fs)

/-- Line 234's flat-output step: `tempDictionary[self.date_field] + " - "`.
A missing key raises `KeyError`; concatenating a non-string raises
`TypeError`.  The flat output line is modelled as the pair of the dedup-key
string and `tempDictionary` itself (line 235's `json.dumps` serialises exactly
this mapping). -/
def flatStep (d : PyDict) : Except PyErr (PyStr × PyDict) :=
  match alookup d date_field with
  | none => .error .keyError
  | some (.vstr s) => .ok (s, d)
  | some _ => .error .typeError

/-- The serialised value of one attribute in a CSV data row (line 254):
`str(tempDictionary.get(attr, "")).replace(",", " ")`. -/
def rowVal (d : PyDict) (attr : PyStr) : PyStr :=
  replaceComma (pyStr (alookupD d attr (.vstr [])))

/-- The serialised values of all attributes, in `CDRAttributes` order. -/
def rowVals (d : PyDict) : List PyStr := CDRAttributes.map (rowVal d)

/-- A CSV data row as written by lines 251-256: each value followed by a
comma, all trailing commas stripped, newline-terminated. -/
def csvRow (d : PyDict) : PyStr :=
  rstripCommas (CDRAttributes.foldl (fun acc attr => acc ++ rowVal d attr ++ [',']) []) ++ ['\n']

/-- The CSV header line written at lines 217-221: the attribute names in
fixed order, comma-joined, newline-terminated. -/
def interComma (l : List PyStr) : PyStr :=
  match l with
  | [] => []
  | h :: t => t.foldl (fun acc a => acc ++ [','] ++ a) h

/-- The header line, including its newline. -/
def headerLine : PyStr := interComma CDRAttributes ++ ['\n']

/-- Lines 238-246: read the ledger and determine `last_date_time`.
`none` stands for the Python integer `0` of line 246 (header-only file);
a last line with too few comma-separated fields raises `IndexError`, and a
dedup-key field that does not parse raises `ValueError`. -/
def lastGate (lines : List PyStr) : Except PyErr (Option StructTime) :=
  if lines.length > 1 then
    match (pySplit ",".toList (lines.getLastD []))[date_compare_index]? with
    | none => .error .indexError
    | some fld =>
      match strptimeDLR fld with
      | none => .error .valueError
      | some t => .ok (some t)
  else .ok none

/-- Lines 247-249: determine `this_date_time` from the candidate record.
`none` is Python's `None` (no dedup-key value); an unparsable value raises
`ValueError`; `.replace` on a non-string raises `AttributeError`. -/
def candGate (d : PyDict) : Except PyErr (Option StructTime) :=
  match alookup d date_field with
  | none => .ok none
  | some (.vstr s) =>
    match strptimeDLR (replaceComma s) with
    | none => .error .valueError
    | some t => .ok (some t)
  | some _ => .error .attrError

/-- Line 250's test: append when `this_date_time` is `None`, or when the
ledger holds only the header (Python 2 orders any `struct_time` above the
integer `0`), or when the candidate's timestamp is strictly greater. -/
def appendDecision (thisT lastT : Option StructTime) : Bool :=
  match thisT with
  | none => true
  | some t =>
    match lastT with
    | none => true
    | some l => tsGt t l

/-- The per-record ledger merge of lines 237-256 on the current ledger lines. -/
def mergeRecord (lines : List PyStr) (d : PyDict) : Except PyErr (List PyStr) :=
  match lastGate lines with
  | .error e => .error e
  | .ok lastT =>
    match candGate d with
    | .error e => .error e
    | .ok thisT =>
      if appendDecision thisT lastT then .ok (lines ++ [csvRow d])
      else .ok lines

/-- The state threaded through the record loop of `parse`: the flat-output
entries written so far, and the ledger lines (`none` when no CSV was
configured). -/
structure ParseState where
  flat : List (PyStr × PyDict)
  csv : Option (List PyStr)
  deriving DecidableEq

/-- Lines 215-221: when a CSV is configured (`some _`) but the file does not
yet exist (`some none`), create it with exactly the header line. -/
def bootstrapCsv : Option (Option (List PyStr)) → Option (List PyStr)
  | none => none
  | some none => some [headerLine]
  | some (some ls) => some ls

/-- The body of the record loop of lines 224-256 for one CDR. -/
def processRecord (st : ParseState) (c : JTop) : Except PyErr ParseState :=
  match buildTempDict c with
  | .error e => .error e
  | .ok d =>
    match flatStep d with
    | .error e => .error e
    | .ok fe =>
      match st.csv with
      | none => .ok ⟨st.flat ++ [fe], none⟩
      | some lines =>
        match mergeRecord lines d with
        | .error e => .error e
        | .ok lines2 => .ok ⟨st.flat ++ [fe], some lines2⟩

/-- The record loop of lines 224-256. -/
def parseLoop : ParseState → List JTop → Except PyErr ParseState
  | st, [] => .ok st
  | st, c :: cs =>
    match processRecord st c with
    | .error e => .error e
    | .ok st2 => parseLoop st2 cs

/-- `parse` from the CDR list onward (lines 215-256): CSV bootstrap, then the
record loop.  The CSV argument distinguishes `None` (no CSV configured),
`some none` (configured, file absent) and `some (some ls)` (configured, file
present with lines `ls`). -/
def parsePy (csv0 : Option (Option (List PyStr))) (cdrs : List JTop) :
    Except PyErr ParseState :=
  parseLoop ⟨[], bootstrapCsv csv0⟩ cdrs

/-! ## The change detector (lines 124-152) -/

/-- Python list subscripting with negative-index wraparound: an index below
`-len` or at/after `len` raises `IndexError`. -/
def pyIndex {α : Type} (l : List α) (i : Int) : Except PyErr α :=
  let j := if i < 0 then i + l.length else i
  if h : 0 ≤ j ∧ j.toNat < l.length then .ok (l.get ⟨j.toNat, h.2⟩)
  else .error .indexError

/-- `get_file_attrs` (lines 124-132): whitespace-split the listing line, take
the last token as the name and the fifth-from-last token as the size. -/
def get_file_attrs (s : PyStr) : Except PyErr (PyStr × Int) :=
  let toks := wsTokens s
  match pyIndex toks ((toks.length : Int) - 1) with
  | .error e => .error e
  | .ok name =>
    match pyIndex toks ((toks.length : Int) - 5) with
    | .error e => .error e
    | .ok sizeStr =>
      match pyInt sizeStr with
      | .error e => .error e
      | .ok size => .ok (name, size)

/-- `ftp_list_callback` (lines 135-152): a file absent from the stored list,
or whose remote size differs from its on-disk size, is appended to
`needed_files`. -/
def ftp_list_callback (stored : List PyStr) (sizeOnDisk : PyStr → Int)
    (needed : List PyStr) (line : PyStr) : Except PyErr (List PyStr) :=
  match get_file_attrs line with
  | .error e => .error e
  | .ok (name, size) =>
    if stored.contains name then
      if size ≠ sizeOnDisk name then .ok (needed ++ [name]) else .ok needed
    else .ok (needed ++ [name])

/-- The listing loop: `retrlines` invokes the callback once per line. -/
def detectAux (stored : List PyStr) (sizeOnDisk : PyStr → Int)
    (needed : List PyStr) : List PyStr → Except PyErr (List PyStr)
  | [] => .ok needed
  | l :: ls =>
    match ftp_list_callback stored sizeOnDisk needed l with
    | .error e => .error e
    | .ok needed2 => detectAux stored sizeOnDisk needed2 ls

/-- `needed_files` as accumulated over a whole remote listing. -/
def detectNeeded (stored : List PyStr) (sizeOnDisk : PyStr → Int)
    (lines : List PyStr) : Except PyErr (List PyStr) :=
  detectAux stored sizeOnDisk [] lines

/-- The parse of every listing line, pairing each with its (name, size). -/
def parseListing : List PyStr → Except PyErr (List (PyStr × Int))
  | [] => .ok []
  | l :: ls =>
    match get_file_attrs l with
    | .error e => .error e
    | .ok p =>
      match parseListing ls with
      | .error e => .error e
      | .ok ps => .ok (p :: ps)

/-- Should this (name, size) listing entry be fetched? -/
def neededPred (stored : List PyStr) (sizeOnDisk : PyStr → Int)
    (p : PyStr × Int) : Bool :=
  !(stored.contains p.1) || !(p.2 == sizeOnDisk p.1)

/-! ## The per-file loop of `sync` (lines 174-178) -/

/-- Processing of one needed file inside `sync`'s second loop: extract its
CDRs, then run `parse`'s record processing, threading the on-disk CSV state
to the next file. -/
def syncStep (loads : PyStr → Except PyErr Parsed)
    (csv : Option (Option (List PyStr))) (fileLines : List PyStr) :
    Except PyErr (Option (Option (List PyStr))) :=
  match extractCDRs loads fileLines with
  | .error e => .error e
  | .ok cdrs =>
    match parsePy csv cdrs with
    | .error e => .error e
    | .ok st =>
      .ok (match st.csv with | none => none | some ls => some (some ls))

/-- The `for needed_file in self.needed_files` loop of lines 174-178,
instrumented with the list of files whose processing was entered: the loop
body has no exception handler, so an error ends the loop and propagates.
Returns the attempted files and the first uncaught error, if any. -/
def runTrace {σ α : Type} (step : σ → α → Except PyErr σ) :
    σ → List α → List α × Option PyErr
  | _, [] => ([], none)
  | s, f :: fs =>
    match step s f with
    | .error e => ([f], some e)
    | .ok s2 =>
      let r := runTrace step s2 fs
      (f :: r.1, r.2)

/-! ## Concrete inputs used by the witnesses and counterexamples -/

/-- A raw `DateCreated` value (1 Jan 2016), with the embedded comma the
provider format carries. -/
def oldDateRaw : PyStr := "Fri, 01 Jan 2016 10:00:00 +0000".toList

/-- A raw `DateCreated` value one day later (2 Jan 2016). -/
def newDateRaw : PyStr := "Sat, 02 Jan 2016 10:00:00 +0000".toList

/-- The `"Status"` attribute key. -/
def statusKey : PyStr := "Status".toList

/-- The `"Caller"` attribute key. -/
def callerKey : PyStr := "Caller".toList

/-- The `"Called"` attribute key. -/
def calledKey : PyStr := "Called".toList

/-- The parsed form of `oldDateRaw` (`tm_wday` 4, from the name `Fri`). -/
def tOld : StructTime := ⟨2016, 1, 1, 10, 0, 0, 4⟩

/-- The parsed form of `newDateRaw` (`tm_wday` 5, from the name `Sat`). -/
def tNew : StructTime := ⟨2016, 1, 2, 10, 0, 0, 5⟩

/-- A well-formed record dated 1 Jan 2016 whose `Status` field is set. -/
def dOld : PyDict := buildBody [(date_field, .vstr oldDateRaw), (statusKey, .vstr "ok".toList)]

/-- A record dated 2 Jan 2016 carrying only its `DateCreated` field. -/
def dNew : PyDict := buildBody [(date_field, .vstr newDateRaw)]

/-- A record dated 2 Jan 2016 whose `Status` field is also set. -/
def dW1 : PyDict := buildBody [(date_field, .vstr newDateRaw), (statusKey, .vstr "ok".toList)]

/-- A raw `DateCreated` naming the same date-time as `oldDateRaw` but the
weekday `Sat` instead of `Fri`: `strptime` accepts the (wrong) name and
stores its index in `tm_wday`. -/
def sameDayRaw : PyStr := "Sat, 01 Jan 2016 10:00:00 +0000".toList

/-- The parsed form of `sameDayRaw`: equal to `tOld` except for `tm_wday`. -/
def tSame : StructTime := ⟨2016, 1, 1, 10, 0, 0, 5⟩

/-- A record dated `sameDayRaw` whose `Status` field is set. -/
def dSame : PyDict := buildBody [(date_field, .vstr sameDayRaw), (statusKey, .vstr "ok".toList)]

/-- A ledger holding the header and one well-formed data row. -/
def ledger0 : List PyStr := [headerLine, csvRow dOld]

/-- A `json.loads` behaviour: the payload `{"x": 1}` parses to an object
without a `call` key; anything else fails to parse. -/
def loads0 (s : PyStr) : Except PyErr Parsed :=
  if s = "\x7b\x22x\x22: 1\x7d".toList then .ok (.pobj [("x".toList, .tprim (.vint 1))])
  else .error .valueError

/-- A log line whose marker payload is `{"x": 1}`: it parses, but the object
has no `call` sub-object. -/
def lineNoCall : PyStr := "2016-01-01 INFO Submitting CDR [text=\x7b\x22x\x22: 1\x7d]".toList

/-- A `json.loads` behaviour: the payload `{"call": {}}` parses to an object
with an empty `call` sub-object. -/
def loadsCall (s : PyStr) : Except PyErr Parsed :=
  if s = "\x7b\x22call\x22: \x7b\x7d\x7d".toList then .ok (.pobj [(callKey, .tobj [])])
  else .error .valueError

/-- A log line whose marker payload is `{"call": {}}`. -/
def lineWithCall : PyStr := "INFO Submitting CDR [text=\x7b\x22call\x22: \x7b\x7d\x7d]".toList

/-- Raw CDR fields with no `DateCreated`. -/
def fsMissing : PyDict := [(callerKey, .vstr "bob".toList)]

/-- Raw CDR fields whose `DateCreated` value does not match the timestamp
format. -/
def fsBadDate : PyDict := [(date_field, .vstr "nope".toList)]

/-- A parse state whose CSV ledger holds only the header. -/
def st0 : ParseState := ⟨[], some [headerLine]⟩

/-- Raw CDR fields with a date and a numeric `StatusCode` of `0`. -/
def fsW3 : PyDict := [(date_field, .vstr newDateRaw), (statusCodeKey, .vint 0)]

/-- The CDR list holding exactly one record built from `fsW3`. -/
def cdrsW3 : List JTop := [.tobj fsW3]

/-- The flat output produced by parsing `cdrsW3`. -/
def flatW3 : List (PyStr × PyDict) := [(newDateRaw, buildBody fsW3)]

/-- The ledger produced by merging `cdrsW3` into a fresh CSV. -/
def outW3 : List PyStr := [headerLine, csvRow (buildBody fsW3)]

/-- A ledger data row whose dedup-key field is not a timestamp. -/
def badLedgerLine : PyStr := "a,b,c,d,e,garbage,f\n".toList

/-- Another ledger data row whose dedup-key field is not a timestamp. -/
def badLedgerLine2 : PyStr := "x,x,x,x,x,not-a-date,x\n".toList

/-- A listing line for `a.txt`, size 100. -/
def listingA : PyStr := "-rw-r--r-- 1 ftp ftp 100 Jan 01 2016 a.txt".toList

/-- A listing line for `b.txt`, size 200. -/
def listingB : PyStr := "-rw-r--r-- 1 ftp ftp 200 Jan 01 2016 b.txt".toList

/-- A listing line for `c.txt`, size 300. -/
def listingC : PyStr := "-rw-r--r-- 1 ftp ftp 300 Jan 01 2016 c.txt".toList

/-- Local working directory contents: `a.txt` and `b.txt` are present. -/
def stored0 : List PyStr := ["a.txt".toList, "b.txt".toList]

/-- On-disk sizes: `a.txt` matches the listing, `b.txt` does not. -/
def sizeOnDisk0 (n : PyStr) : Int := if n = "a.txt".toList then 100 else 55

/-- The (name, size) pairs of the three listing lines. -/
def pairs0 : List (PyStr × Int) :=
  [("a.txt".toList, 100), ("b.txt".toList, 200), ("c.txt".toList, 300)]

/-- A listing line with three whitespace-separated tokens. -/
def shortListing : PyStr := "x 12 name".toList

/-- A listing line with two whitespace-separated tokens. -/
def shortListing2 : PyStr := "ab cd".toList

/-- Raw CDR fields with no `StatusCode` (the final fixed attribute). -/
def fsNoSC : PyDict := [(date_field, .vstr newDateRaw), (statusKey, .vstr "ok".toList)]

/-- Raw CDR fields with a `Caller` and a `StatusCode`, but no `Called`. -/
def fsW10 : PyDict := [(callerKey, .vstr "bob".toList), (statusCodeKey, .vint 0)]

/-! ## Helper lemmas -/

theorem tsGt_irrefl (t : StructTime) : tsGt t t = false := by
  simp [tsGt]

theorem alookup_append {α : Type} (l1 l2 : List (PyStr × α)) (k : PyStr) :
    alookup (l1 ++ l2) k = ((alookup l1 k).map some).getD (alookup l2 k) := by
  induction l1 with
  | nil => simp [alookup]
  | cons p rest ih =>
    obtain ⟨k1, v1⟩ := p
    by_cases h : k1 = k <;> simp [alookup, h, ih]

theorem foldl_append_join {α β : Type} (g : α → List β) (l : List α) :
    ∀ acc : List β, l.foldl (fun a x => a ++ g x) acc = acc ++ (l.map g).flatten := by
  induction l with
  | nil => simp
  | cons x xs ih => intro acc; simp [List.foldl, ih]

/-- The value `tempDictionary` holds for an attribute, as a function of the
raw CDR fields. -/
def projAttr (fs : PyDict) (k : PyStr) : Option PyVal :=
  match alookup fs k with
  | none => none
  | some v => if v = .vnone then none else some (translateAttr k v)

theorem alookup_attrEntry_self (fs : PyDict) (k : PyStr) :
    alookup (attrEntry fs k) k = projAttr fs k := by
  unfold attrEntry projAttr
  cases alookup fs k with
  | none => rfl
  | some v =>
    by_cases hv : v = PyVal.vnone <;> simp [hv, alookup]

theorem alookup_attrEntry_ne (fs : PyDict) (a k : PyStr) (h : a ≠ k) :
    alookup (attrEntry fs a) k = none := by
  unfold attrEntry
  cases alookup fs a with
  | none => rfl
  | some v =>
    by_cases hv : v = PyVal.vnone <;> simp [hv, alookup, h]

theorem alookup_join_not_mem (fs : PyDict) (attrs : List PyStr) (k : PyStr)
    (h : ∀ a ∈ attrs, a ≠ k) :
    alookup ((attrs.map (attrEntry fs)).flatten) k = none := by
  induction attrs with
  | nil => rfl
  | cons a rest ih =>
    have ha : a ≠ k := h a (List.mem_cons_self a rest)
    have hr : ∀ b ∈ rest, b ≠ k := fun b hb => h b (List.mem_cons_of_mem a hb)
    rw [List.map_cons, List.flatten_cons, alookup_append,
      alookup_attrEntry_ne fs a k ha, ih hr]
    rfl

theorem alookup_join_nodup (fs : PyDict) (attrs : List PyStr) (k : PyStr)
    (hnd : attrs.Nodup) (hmem : k ∈ attrs) :
    alookup ((attrs.map (attrEntry fs)).flatten) k = projAttr fs k := by
  induction attrs with
  | nil => cases hmem
  | cons a rest ih =>
    rcases List.mem_cons.mp hmem with h | h
    · subst h
      have hnot : ∀ b ∈ rest, b ≠ k := by
        intro b hb hc; subst hc; exact (List.nodup_cons.mp hnd).1 hb
      rw [List.map_cons, List.flatten_cons, alookup_append,
        alookup_attrEntry_self fs k, alookup_join_not_mem fs rest k hnot]
      cases projAttr fs k <;> rfl
    · have ha : a ≠ k := by
        intro hc; subst hc; exact (List.nodup_cons.mp hnd).1 h
      rw [List.map_cons, List.flatten_cons, alookup_append,
        alookup_attrEntry_ne fs a k ha, ih (List.nodup_cons.mp hnd).2 h]
      rfl

theorem nodup_CDRAttributes : CDRAttributes.Nodup := by decide

theorem alookup_buildBody (fs : PyDict) (k : PyStr) (hmem : k ∈ CDRAttributes) :
    alookup (buildBody fs) k = projAttr fs k := by
  unfold buildBody
  rw [foldl_append_join (attrEntry fs) CDRAttributes []]
  simpa using alookup_join_nodup fs CDRAttributes k nodup_CDRAttributes hmem

theorem translate_keeps_date (s : PyStr) :
    translateAttr date_field (.vstr s) = .vstr s := rfl

theorem replaceComma_no_comma (s : PyStr) : ∀ c ∈ replaceComma s, c ≠ ',' := by
  intro c hc
  rcases List.mem_map.mp hc with ⟨x, _, hx⟩
  by_cases hx2 : x = ','
  · subst hx2; simp at hx; subst hx; decide
  · have : (x == ',') = false := by simpa using hx2
    rw [this] at hx; simp at hx; subst hx; exact hx2

theorem rstrip_append_ne (y : PyStr) (c : Char) (h : c ≠ ',') :
    rstripCommas (y ++ [c]) = y ++ [c] := by
  have hb : (c == ',') = false := by simpa using h
  simp [rstripCommas, List.dropWhile, hb]

theorem rstrip_append_comma (y : PyStr) :
    rstripCommas (y ++ [',']) = rstripCommas y := by
  simp [rstripCommas, List.dropWhile]

/-- The body of a data row before the trailing-comma strip: each value
followed by a comma. -/
def joinAll : List PyStr → PyStr
  | [] => []
  | v :: vs => v ++ [','] ++ joinAll vs

theorem foldl_rowJoin {α : Type} (f : α → PyStr) (l : List α) :
    ∀ acc : PyStr, l.foldl (fun a x => a ++ f x ++ [',']) acc = acc ++ joinAll (l.map f) := by
  induction l with
  | nil => intro acc; simp [joinAll]
  | cons x xs ih =>
    intro acc
    rw [List.map_cons, joinAll, List.foldl_cons, ih (acc ++ f x ++ [','])]
    simp

theorem foldl_interShift (t : List PyStr) :
    ∀ x y : PyStr, t.foldl (fun acc a => acc ++ [','] ++ a) (x ++ y) =
      x ++ t.foldl (fun acc a => acc ++ [','] ++ a) y := by
  induction t with
  | nil => intro x y; rfl
  | cons b t ih =>
    intro x y
    rw [List.foldl_cons, List.foldl_cons]
    have h1 : x ++ y ++ [','] ++ b = x ++ (y ++ [','] ++ b) := by simp
    rw [h1, ih x (y ++ [','] ++ b)]

theorem interComma_cons₂ (v a : PyStr) (t : List PyStr) :
    interComma (v :: a :: t) = v ++ [','] ++ interComma (a :: t) := by
  show List.foldl (fun acc b => acc ++ [','] ++ b) ((v ++ [',']) ++ a) t =
    (v ++ [',']) ++ List.foldl (fun acc b => acc ++ [','] ++ b) a t
  exact foldl_interShift t (v ++ [',']) a

theorem interComma_concat (pre : List PyStr) (v : PyStr) (h : pre ≠ []) :
    interComma (pre ++ [v]) = interComma pre ++ [','] ++ v := by
  match pre with
  | [] => exact absurd rfl h
  | h0 :: t =>
    show (t ++ [v]).foldl (fun acc b => acc ++ [','] ++ b) h0 = _
    rw [List.foldl_append]
    rfl

theorem joinAll_eq_inter (vals : List PyStr) (h : vals ≠ []) :
    joinAll vals = interComma vals ++ [','] := by
  induction vals with
  | nil => exact absurd rfl h
  | cons v vs ih =>
    match vs with
    | [] => simp [joinAll, interComma]
    | a :: t =>
      rw [joinAll, ih (by simp), interComma_cons₂]
      simp

theorem splitAux_nil (sep : PyStr) (fuel : Nat) : pySplitAux sep fuel [] = [[]] := by
  cases fuel <;> rfl

theorem isPrefixL_comma (c : Char) (rest : PyStr) :
    isPrefixL [','] (c :: rest) = (',' == c) := by
  simp [isPrefixL]

theorem splitAux_nocomma (v : PyStr) (h : ∀ c ∈ v, c ≠ ',') :
    ∀ fuel, v.length ≤ fuel → pySplitAux [','] fuel v = [v] := by
  induction v with
  | nil => intro fuel _; exact splitAux_nil _ _
  | cons c v ih =>
    intro fuel hf
    match fuel with
    | 0 => simp at hf
    | f + 1 =>
      have hc : c ≠ ',' := fun hc => h c (by simp) hc
      have hb : (',' == c) = false := by
        simp; intro hc2; exact hc hc2.symm
      have hrec := ih (fun d hd => h d (by simp [hd])) f (by simpa using hf)
      simp only [pySplitAux, isPrefixL_comma, hb]
      rw [if_neg (by simp), hrec]
      rfl

theorem splitAux_append (v : PyStr) (h : ∀ c ∈ v, c ≠ ',') :
    ∀ fuel (rest : PyStr), (v ++ ',' :: rest).length ≤ fuel →
      pySplitAux [','] fuel (v ++ ',' :: rest) =
        v :: pySplitAux [','] (fuel - (v.length + 1)) rest := by
  induction v with
  | nil =>
    intro fuel rest hf
    match fuel with
    | 0 => simp at hf
    | f + 1 =>
      simp only [List.nil_append, pySplitAux, isPrefixL_comma]
      rw [if_pos (by simp)]
      simp [pySplitAux]
  | cons c v ih =>
    intro fuel rest hf
    match fuel with
    | 0 => simp at hf
    | f + 1 =>
      have hc : c ≠ ',' := fun hc => h c (by simp) hc
      have hb : (',' == c) = false := by
        simp; intro hc2; exact hc hc2.symm
      have hrec := ih (fun d hd => h d (by simp [hd])) f rest (by simpa using hf)
      simp only [List.cons_append, pySplitAux, isPrefixL_comma, hb]
      rw [if_neg (by simp), List.append_eq, hrec]
      simp [consFirst, Nat.succ_sub_succ]

theorem split_nocomma (v : PyStr) (h : ∀ c ∈ v, c ≠ ',') :
    pySplit [','] v = [v] :=
  splitAux_nocomma v h v.length le_rfl

theorem split_append (v rest : PyStr) (h : ∀ c ∈ v, c ≠ ',') :
    pySplit [','] (v ++ ',' :: rest) = v :: pySplit [','] rest := by
  unfold pySplit
  rw [splitAux_append v h _ rest le_rfl]
  have hlen : (v ++ ',' :: rest).length - (v.length + 1) = rest.length := by
    simp only [List.length_append, List.length_cons]
    omega
  rw [hlen]

theorem split_interComma (vals : List PyStr) (hne : vals ≠ [])
    (h : ∀ v ∈ vals, ∀ c ∈ v, c ≠ ',') :
    pySplit [','] (interComma vals) = vals := by
  induction vals with
  | nil => exact absurd rfl hne
  | cons v vs ih =>
    match vs with
    | [] =>
      show pySplit [','] v = [v]
      exact split_nocomma v (h v (by simp))
    | a :: t =>
      rw [interComma_cons₂]
      have h1 : v ++ [','] ++ interComma (a :: t) = v ++ ',' :: interComma (a :: t) := by simp
      rw [h1, split_append v _ (h v (by simp)),
        ih (by simp) (fun w hw => h w (by simp [hw]))]

theorem csvRow_eq_join (d : PyDict) :
    csvRow d = rstripCommas (joinAll (rowVals d)) ++ ['\n'] := by
  unfold csvRow rowVals
  rw [foldl_rowJoin (rowVal d) CDRAttributes []]
  rfl

theorem rowVal_no_comma (d : PyDict) (a : PyStr) : ∀ c ∈ rowVal d a, c ≠ ',' :=
  replaceComma_no_comma _

theorem rowVals_decomp (d : PyDict) :
    rowVals d = (CDRAttributes.dropLast.map (rowVal d)) ++ [rowVal d statusCodeKey] := rfl

theorem csvRow_eq_inter (d : PyDict) (h : rowVal d statusCodeKey ≠ []) :
    csvRow d = interComma (rowVals d) ++ ['\n'] := by
  rw [csvRow_eq_join]
  have hvals : rowVals d ≠ [] := by rw [rowVals_decomp]; simp
  rw [joinAll_eq_inter (rowVals d) hvals, rstrip_append_comma]
  rcases List.eq_nil_or_concat (rowVal d statusCodeKey) with hnil | ⟨v0, c, hvc⟩
  · exact absurd hnil h
  · rw [List.concat_eq_append] at hvc
    have hcne : c ≠ ',' := by
      apply rowVal_no_comma d statusCodeKey
      rw [hvc]; simp
    have hfront : CDRAttributes.dropLast.map (rowVal d) ≠ [] := by
      simp [CDRAttributes]
    rw [rowVals_decomp d, interComma_concat _ _ hfront, hvc]
    have hassoc :
        interComma (CDRAttributes.dropLast.map (rowVal d)) ++ [','] ++ (v0 ++ [c]) =
          (interComma (CDRAttributes.dropLast.map (rowVal d)) ++ [','] ++ v0) ++ [c] := by
      simp
    rw [hassoc, rstrip_append_ne _ c hcne]

theorem mergeRecord_shape (lines : List PyStr) (d : PyDict) (out : List PyStr)
    (h : mergeRecord lines d = .ok out) :
    out = lines ∨ out = lines ++ [csvRow d] := by
  cases hl : lastGate lines with
  | error e => simp [mergeRecord, hl] at h
  | ok lastT =>
    cases hc : candGate d with
    | error e => simp [mergeRecord, hl, hc] at h
    | ok thisT =>
      by_cases hd : appendDecision thisT lastT = true
      · simp [mergeRecord, hl, hc, hd] at h
        exact Or.inr h.symm
      · simp [mergeRecord, hl, hc, hd] at h
        exact Or.inl h.symm

theorem parseLoop_csv (cs : List JTop) :
    ∀ (st st' : ParseState) (ls : List PyStr),
      parseLoop st cs = .ok st' → st.csv = some ls →
      ∃ rows, st'.csv = some (ls ++ rows) ∧
        ∀ r ∈ rows, ∃ c d, c ∈ cs ∧ buildTempDict c = .ok d ∧ r = csvRow d := by
  induction cs with
  | nil =>
    intro st st' ls h hcsv
    cases h
    exact ⟨[], by simpa using hcsv, fun r hr => absurd hr (List.not_mem_nil r)⟩
  | cons c cs ih =>
    intro st st' ls h hcsv
    unfold parseLoop at h
    cases hp : processRecord st c with
    | error e => rw [hp] at h; cases h
    | ok st1 =>
      rw [hp] at h
      cases hb : buildTempDict c with
      | error e => simp [processRecord, hb] at hp
      | ok d =>
        cases hf : flatStep d with
        | error e => simp [processRecord, hb, hf] at hp
        | ok fe =>
          cases hm : mergeRecord ls d with
          | error e => simp [processRecord, hb, hf, hcsv, hm] at hp
          | ok ls1 =>
            have hst : st1 = ⟨st.flat ++ [fe], some ls1⟩ := by
              have hcomp : processRecord st c = .ok ⟨st.flat ++ [fe], some ls1⟩ := by
                simp [processRecord, hb, hf, hcsv, hm]
              rw [hp] at hcomp
              exact Except.ok.inj hcomp
            subst hst
            rcases ih _ st' ls1 h rfl with ⟨rows1, hcsv1, hrows1⟩
            rcases mergeRecord_shape ls d ls1 hm with hsame | happ
            · subst hsame
              exact ⟨rows1, hcsv1, fun r hr => by
                rcases hrows1 r hr with ⟨c2, d2, hc2, hd2, hr2⟩
                exact ⟨c2, d2, List.mem_cons_of_mem c hc2, hd2, hr2⟩⟩
            · subst happ
              refine ⟨[csvRow d] ++ rows1, by simpa using hcsv1, ?_⟩
              intro r hr
              rcases List.mem_append.mp hr with hr1 | hr2
              · have : r = csvRow d := by simpa using hr1
                exact ⟨c, d, List.mem_cons_self c cs, hb, this⟩
              · rcases hrows1 r hr2 with ⟨c2, d2, hc2, hd2, hr3⟩
                exact ⟨c2, d2, List.mem_cons_of_mem c hc2, hd2, hr3⟩

theorem detectAux_spec (stored : List PyStr) (sizeOnDisk : PyStr → Int)
    (lines : List PyStr) :
    ∀ (pairs : List (PyStr × Int)) (acc : List PyStr),
      parseListing lines = .ok pairs →
      detectAux stored sizeOnDisk acc lines =
        .ok (acc ++ (pairs.filter (neededPred stored sizeOnDisk)).map Prod.fst) := by
  induction lines with
  | nil =>
    intro pairs acc h
    unfold parseListing at h
    cases h
    simp [detectAux]
  | cons l ls ih =>
    intro pairs acc h
    unfold parseListing at h
    cases hg : get_file_attrs l with
    | error e => rw [hg] at h; cases h
    | ok p =>
      rw [hg] at h
      cases hps : parseListing ls with
      | error e => rw [hps] at h; cases h
      | ok ps =>
        rw [hps] at h
        cases h
        obtain ⟨name, size⟩ := p
        by_cases hmem : stored.contains name = true
        · have hmem2 : name ∈ stored := by simpa using hmem
          by_cases hsz : size = sizeOnDisk name
          · have hcb : ftp_list_callback stored sizeOnDisk acc l = .ok acc := by
              simp [ftp_list_callback, hg, hmem2, hsz]
            have hstep : detectAux stored sizeOnDisk acc (l :: ls) =
                detectAux stored sizeOnDisk acc ls := by
              simp [detectAux, hcb]
            have hpred : neededPred stored sizeOnDisk (name, size) = false := by
              simp [neededPred, hmem2, hsz]
            rw [hstep, ih ps acc hps]
            simp [List.filter_cons, hpred]
          · have hcb : ftp_list_callback stored sizeOnDisk acc l = .ok (acc ++ [name]) := by
              simp [ftp_list_callback, hg, hmem2, hsz]
            have hstep : detectAux stored sizeOnDisk acc (l :: ls) =
                detectAux stored sizeOnDisk (acc ++ [name]) ls := by
              simp [detectAux, hcb]
            have hpred : neededPred stored sizeOnDisk (name, size) = true := by
              simp [neededPred, hsz]
            rw [hstep, ih ps (acc ++ [name]) hps]
            simp [List.filter_cons, hpred]
        · have hmem2 : ¬ name ∈ stored := by simpa using hmem
          have hcb : ftp_list_callback stored sizeOnDisk acc l = .ok (acc ++ [name]) := by
            simp [ftp_list_callback, hg, hmem2]
          have hstep : detectAux stored sizeOnDisk acc (l :: ls) =
              detectAux stored sizeOnDisk (acc ++ [name]) ls := by
            simp [detectAux, hcb]
          have hpred : neededPred stored sizeOnDisk (name, size) = true := by
            simp [neededPred, hmem2]
          rw [hstep, ih ps (acc ++ [name]) hps]
          simp [List.filter_cons, hpred]


/-! ## Claim theorems -/

/-- C1 (amended): for a candidate record whose dedup-key value parses, and a
ledger whose last line's dedup-key field parses, the merge appends the record
exactly when its timestamp is strictly greater than the last line's; and
merging into a ledger whose last line is the record's own row (whose dedup
column re-parses, i.e. it is not the row's final field) silently skips the
record, so the same record merged twice in sequence yields one row. -/
theorem merge_append_iff_strictly_newer (lines : List PyStr) (d : PyDict)
    (ds : PyStr) (t l : StructTime)
    (h1 : alookup d date_field = some (.vstr ds))
    (h2 : strptimeDLR (replaceComma ds) = some t)
    (h3 : lastGate lines = .ok (some l))
    (h4 : (pySplit [','] (csvRow d))[date_compare_index]? = some (replaceComma ds)) :
    mergeRecord lines d = .ok (if tsGt t l then lines ++ [csvRow d] else lines)
    ∧ mergeRecord (lines ++ [csvRow d]) d = .ok (lines ++ [csvRow d]) := by
  have hcand : candGate d = .ok (some t) := by
    simp [candGate, h1, h2]
  constructor
  · cases htg : tsGt t l <;>
      simp [mergeRecord, h3, hcand, appendDecision, htg]
  · have hlen : 1 < lines.length := by
      by_contra hc
      unfold lastGate at h3
      rw [if_neg (by omega)] at h3
      simp at h3
    have hlen2 : 1 < (lines ++ [csvRow d]).length := by
      simp only [List.length_append, List.length_cons]
      omega
    have hne : lines ≠ [] := by
      intro hc
      rw [hc] at hlen
      simp at hlen
    have hlast : (lines ++ [csvRow d]).getLastD [] = csvRow d :=
      List.getLastD_concat _ _ _
    have hgate2 : lastGate (lines ++ [csvRow d]) = .ok (some t) := by
      simp [lastGate, hlen2, hlast, h4, h2, hne]
    simp [mergeRecord, hgate2, hcand, appendDecision, tsGt_irrefl]

/-- C1 witness: a concrete record dated 2 Jan 2016 against a ledger whose
last row is dated 1 Jan 2016: it is appended, and a second merge of the same
record is skipped.  A second instantiation exercises the `tm_wday`
tie-break: a candidate naming the same date-time as the ledger's last row
but the weekday `Sat` instead of `Fri` compares strictly greater in
`struct_time` order and is appended. -/
theorem merge_append_iff_strictly_newer_witness :
    (mergeRecord ledger0 dW1 = .ok (if tsGt tNew tOld then ledger0 ++ [csvRow dW1] else ledger0)
     ∧ mergeRecord (ledger0 ++ [csvRow dW1]) dW1 = .ok (ledger0 ++ [csvRow dW1]))
    ∧ tsGt tSame tOld = true
    ∧ mergeRecord ledger0 dSame =
        .ok (if tsGt tSame tOld then ledger0 ++ [csvRow dSame] else ledger0) :=
  ⟨merge_append_iff_strictly_newer ledger0 dW1 newDateRaw tNew tOld
    (by decide) (by decide) (by decide) (by decide),
   by decide,
   (merge_append_iff_strictly_newer ledger0 dSame sameDayRaw tSame tOld
    (by decide) (by decide) (by decide) (by decide)).1⟩

/-- C1 counterexample: a record carrying only its `DateCreated` serialises to
a row whose dedup column is the final field; the first merge appends it, and
the second merge of the very same record raises `ValueError` (the re-read
last-line field carries the trailing newline and no longer parses) instead of
being silently skipped, so "merging the same record twice writes exactly one
row, the second being skipped" fails on this input. -/
theorem merge_twice_second_raises :
    mergeRecord ledger0 dNew = .ok (ledger0 ++ [csvRow dNew])
    ∧ mergeRecord (ledger0 ++ [csvRow dNew]) dNew = .error .valueError :=
  ⟨by decide, by decide⟩

/-- C2: for a listing whose every line parses to a (name, size) pair, the
change detector needs exactly the files absent from the stored list or whose
size differs from the on-disk size, in listing order. -/
theorem detectNeeded_filters_listing (stored : List PyStr) (sizeOnDisk : PyStr → Int)
    (lines : List PyStr) (pairs : List (PyStr × Int))
    (h : parseListing lines = .ok pairs) :
    detectNeeded stored sizeOnDisk lines =
      .ok ((pairs.filter (neededPred stored sizeOnDisk)).map Prod.fst) := by
  unfold detectNeeded
  simpa using detectAux_spec stored sizeOnDisk lines pairs [] h

/-- C2 witness: of three listed files, the size-matching stored one is
skipped and the size-mismatched and missing ones are needed, in order. -/
theorem detectNeeded_filters_listing_witness :
    detectNeeded stored0 sizeOnDisk0 [listingA, listingB, listingC] =
      .ok ((pairs0.filter (neededPred stored0 sizeOnDisk0)).map Prod.fst)
    ∧ (pairs0.filter (neededPred stored0 sizeOnDisk0)).map Prod.fst =
      ["b.txt".toList, "c.txt".toList] :=
  ⟨detectNeeded_filters_listing stored0 sizeOnDisk0 [listingA, listingB, listingC]
    pairs0 (by decide), by decide⟩

/-- C3: a merge with CSV output enabled against a non-existent ledger file
creates it with exactly one header line — the fixed attribute names,
comma-joined, in order — and everything after that line is a data row of one
of the run's records. -/
theorem ledger_bootstrap_header (cdrs : List JTop) (flat : List (PyStr × PyDict))
    (out : List PyStr)
    (h : parsePy (some none) cdrs = .ok ⟨flat, some out⟩) :
    headerLine = interComma CDRAttributes ++ ['\n']
    ∧ ∃ rows, out = headerLine :: rows ∧
        ∀ r ∈ rows, ∃ c d, c ∈ cdrs ∧ buildTempDict c = .ok d ∧ r = csvRow d := by
  refine ⟨rfl, ?_⟩
  have h2 : parseLoop ⟨[], bootstrapCsv (some none)⟩ cdrs = .ok ⟨flat, some out⟩ := h
  rcases parseLoop_csv cdrs ⟨[], bootstrapCsv (some none)⟩ ⟨flat, some out⟩
      [headerLine] h2 rfl with ⟨rows, hcsv, hrows⟩
  exact ⟨rows, by simpa using hcsv, hrows⟩

/-- C3 witness: one concrete record merged into a non-existent ledger yields
the header line followed by that record's row. -/
theorem ledger_bootstrap_header_witness :
    parsePy (some none) cdrsW3 = .ok ⟨flatW3, some outW3⟩
    ∧ (headerLine = interComma CDRAttributes ++ ['\n']
       ∧ ∃ rows, outW3 = headerLine :: rows ∧
           ∀ r ∈ rows, ∃ c d, c ∈ cdrsW3 ∧ buildTempDict c = .ok d ∧ r = csvRow d) :=
  ⟨by decide, ledger_bootstrap_header cdrsW3 flatW3 outW3 (by decide)⟩

/-- C4 (amended): an error raised while processing one needed file ends the
per-file loop of `sync`: the failing file is the last one attempted and every
remaining needed file goes unprocessed, because the loop body has no
exception handler. -/
theorem sync_error_stops_run (loads : PyStr → Except PyErr Parsed)
    (csv : Option (Option (List PyStr))) (f : List PyStr)
    (fs : List (List PyStr)) (e : PyErr)
    (h : syncStep loads csv f = .error e) :
    runTrace (syncStep loads) csv (f :: fs) = ([f], some e) := by
  simp [runTrace, h]

/-- C4 witness: a file whose payload lacks the `call` key raises `KeyError`
and ends the run at that file. -/
theorem sync_error_stops_run_witness :
    runTrace (syncStep loads0) none [[lineNoCall]] = ([[lineNoCall]], some .keyError) :=
  sync_error_stops_run loads0 none [lineNoCall] [] .keyError (by decide)

/-- C4 counterexample: with two needed files, an extraction error in the
first leaves the second unattempted — the trace holds only the failing file,
refuting "does not prevent the remaining needed files from being
attempted". -/
theorem sync_error_skips_rest :
    runTrace (syncStep loads0) none [[lineNoCall], []] = ([[lineNoCall]], some .keyError)
    ∧ ([[lineNoCall], []] : List (List PyStr)).length = 2 :=
  ⟨by decide, rfl⟩

/-- C5 (amended): a candidate record with no `DateCreated` raises `KeyError`
at the flat-output step (so it is dropped with an error, not appended); one
whose `DateCreated` does not parse raises `ValueError` in the merge.  Neither
is treated as "always append". -/
theorem candidate_missing_date_raises (st : ParseState) (fs : PyDict) :
    (alookup fs date_field = none → processRecord st (.tobj fs) = .error .keyError)
    ∧ (∀ s ls lt, alookup fs date_field = some (.vstr s) → st.csv = some ls →
        lastGate ls = .ok lt → strptimeDLR (replaceComma s) = none →
        processRecord st (.tobj fs) = .error .valueError) := by
  have hdate_mem : date_field ∈ CDRAttributes := by decide
  constructor
  · intro habs
    have hlook : alookup (buildBody fs) date_field = none := by
      rw [alookup_buildBody fs date_field hdate_mem]
      simp [projAttr, habs]
    simp [processRecord, buildTempDict, flatStep, hlook]
  · intro s ls lt hdate hcsv hgate hparse
    have hlook : alookup (buildBody fs) date_field = some (.vstr s) := by
      rw [alookup_buildBody fs date_field hdate_mem]
      simp [projAttr, hdate, translate_keeps_date]
    simp [processRecord, buildTempDict, flatStep, hlook, hcsv, mergeRecord,
      hgate, candGate, hparse]

/-- C5 witness: a record without `DateCreated` raises `KeyError`; a record
whose `DateCreated` is `"nope"` raises `ValueError`. -/
theorem candidate_missing_date_raises_witness :
    processRecord st0 (.tobj fsMissing) = .error .keyError
    ∧ processRecord st0 (.tobj fsBadDate) = .error .valueError :=
  ⟨(candidate_missing_date_raises st0 fsMissing).1 (by decide),
   (candidate_missing_date_raises st0 fsBadDate).2 "nope".toList [headerLine] none
     (by decide) rfl (by decide) (by decide)⟩

/-- C5 counterexample: running `parse` with a fresh ledger on a record with a
missing dedup key raises `KeyError`, and on a record with an unparsable dedup
key raises `ValueError`; in both cases the record is dropped with an error
rather than appended, refuting "treated as always append, and no error is
raised". -/
theorem candidate_date_error_counterexample :
    parsePy (some none) [.tobj fsMissing] = .error .keyError
    ∧ parsePy (some none) [.tobj fsBadDate] = .error .valueError :=
  ⟨by decide, by decide⟩

/-- C6 (amended): when the ledger's last line has a dedup-key field that does
not match the timestamp format, the merge raises `ValueError` before even
examining the candidate, so the record is not appended and the file's
processing aborts. -/
theorem ledger_bad_last_line_raises (lines : List PyStr) (d : PyDict) (f : PyStr)
    (h1 : lines.length > 1)
    (h2 : (pySplit [','] (lines.getLastD []))[date_compare_index]? = some f)
    (h3 : strptimeDLR f = none) :
    mergeRecord lines d = .error .valueError := by
  have hg : lastGate lines = .error .valueError := by
    have h2b : (pySplit [','] (lines.getLast?.getD []))[date_compare_index]? = some f := by
      rw [← List.getLastD_eq_getLast?]
      exact h2
    simp [lastGate, h1, h2b, h3]
  simp [mergeRecord, hg]

/-- C6 witness: a ledger whose last line's sixth field is `not-a-date` makes
the merge raise `ValueError`. -/
theorem ledger_bad_last_line_raises_witness :
    mergeRecord [headerLine, badLedgerLine2] dOld = .error .valueError :=
  ledger_bad_last_line_raises [headerLine, badLedgerLine2] dOld "not-a-date".toList
    (by decide) (by decide) (by decide)

/-- C6 counterexample: a candidate whose own timestamp parses fine is still
not appended when the ledger's last line has a malformed dedup field — the
merge raises `ValueError` instead of treating the bad row as "no reliable
comparison point" and appending. -/
theorem ledger_bad_last_line_counterexample :
    candGate dNew = .ok (some tNew)
    ∧ mergeRecord [headerLine, badLedgerLine] dNew = .error .valueError :=
  ⟨by decide, by decide⟩

/-- C7 (amended): a marker line whose payload parses as an object yields one
candidate record when the object has a `call` key; when the `call` key is
absent the subscript raises `KeyError`, aborting extraction of the file
rather than yielding no record. -/
theorem extract_call_key_behavior (loads : PyStr → Except PyErr Parsed)
    (acc : List JTop) (line : PyStr) (fs : List (PyStr × JTop))
    (hm : containsSub marker line = true)
    (hp : loads (payloadOf line) = .ok (.pobj fs)) :
    (∀ c, alookup fs callKey = some c → extractStep loads acc line = .ok (acc ++ [c]))
    ∧ (alookup fs callKey = none → extractStep loads acc line = .error .keyError) := by
  constructor
  · intro c hc
    simp [extractStep, hm, hp, hc]
  · intro hc
    simp [extractStep, hm, hp, hc]

/-- C7 witness: a line whose payload is `{"call": {}}` yields exactly the
empty `call` record. -/
theorem extract_call_key_behavior_witness :
    extractStep loadsCall [] lineWithCall = .ok [JTop.tobj []] :=
  (extract_call_key_behavior loadsCall [] lineWithCall [(callKey, .tobj [])]
    (by decide) (by decide)).1 (.tobj []) (by decide)

/-- C7 counterexample: a marker line whose payload parses to `{"x": 1}` — an
object without a `call` sub-object — makes extraction raise `KeyError`
instead of yielding no record and continuing. -/
theorem extract_missing_call_aborts :
    alookup [("x".toList, JTop.tprim (.vint 1))] callKey = none
    ∧ extractCDRs loads0 [lineNoCall] = .error .keyError :=
  ⟨by decide, by decide⟩

/-- C8 (amended): a listing line with fewer than three whitespace-separated
tokens raises `IndexError` in `get_file_attrs`; with three or four tokens
Python's negative indexing wraps around instead of failing (see the
counterexample). -/
theorem listing_under_three_tokens_error (s : PyStr)
    (h : (wsTokens s).length < 3) :
    get_file_attrs s = .error .indexError := by
  rcases htoks : wsTokens s with _ | ⟨a, _ | ⟨b, _ | ⟨c, rest⟩⟩⟩
  · simp [get_file_attrs, htoks, pyIndex]
  · simp [get_file_attrs, htoks, pyIndex]
  · simp [get_file_attrs, htoks, pyIndex]
  · rw [htoks] at h
    simp at h
    omega

/-- C8 witness: the two-token line `ab cd` raises `IndexError`. -/
theorem listing_under_three_tokens_error_witness :
    (wsTokens shortListing2).length < 3
    ∧ get_file_attrs shortListing2 = .error .indexError :=
  ⟨by decide, listing_under_three_tokens_error shortListing2 (by decide)⟩

/-- C8 counterexample: the three-token line `x 12 name` has too few tokens
for a fifth-from-last field, yet `get_file_attrs` returns `("name", 12)` —
Python's negative index `-2` wraps around to the second token — instead of
failing with a fatal error. -/
theorem listing_short_line_misparses :
    (wsTokens shortListing).length < 5
    ∧ get_file_attrs shortListing = .ok ("name".toList, 12) :=
  ⟨by decide, by decide⟩

/-- C9 (amended): when the final attribute's serialised value is non-empty,
a data row is the comma-join of exactly one comma-free field per fixed
attribute (so its field count equals the attribute count); when the trailing
values are empty their columns are collapsed by the strip of all trailing
commas (see the counterexample). -/
theorem csv_row_arity_when_last_nonempty (d : PyDict)
    (h : rowVal d statusCodeKey ≠ []) :
    csvRow d = interComma (rowVals d) ++ ['\n']
    ∧ pySplit [','] (interComma (rowVals d)) = rowVals d
    ∧ (rowVals d).length = CDRAttributes.length := by
  refine ⟨csvRow_eq_inter d h, ?_, by simp [rowVals]⟩
  apply split_interComma
  · rw [rowVals_decomp]
    simp
  · intro v hv
    rcases List.mem_map.mp (by simpa [rowVals] using hv) with ⟨a, ha, hva⟩
    rw [← hva]
    exact rowVal_no_comma d a

/-- C9 witness: a record whose `StatusCode` is present serialises to a row of
exactly seventeen fields. -/
theorem csv_row_arity_when_last_nonempty_witness :
    csvRow (buildBody fsW3) = interComma (rowVals (buildBody fsW3)) ++ ['\n']
    ∧ pySplit [','] (interComma (rowVals (buildBody fsW3))) = rowVals (buildBody fsW3)
    ∧ (rowVals (buildBody fsW3)).length = CDRAttributes.length :=
  csv_row_arity_when_last_nonempty (buildBody fsW3) (by decide)

/-- C9 counterexample: a record carrying only `DateCreated` is appended as a
row of six comma-separated fields, not seventeen — `rstrip(',')` removes all
trailing commas, collapsing the eleven empty trailing columns. -/
theorem csv_row_arity_counterexample :
    mergeRecord [headerLine] dNew = .ok [headerLine, csvRow dNew]
    ∧ (pySplit [','] (csvRow dNew)).length = 6
    ∧ CDRAttributes.length = 17 :=
  ⟨by decide, by decide, rfl⟩

/-- C10 (amended): when the final attribute's serialised value is non-empty,
a fixed-list attribute absent from the record's fields occupies an empty
field at its column position in the row body, while being omitted entirely
from the flat-output mapping; trailing absent attributes instead lose their
columns to the trailing-comma strip (see the counterexample). -/
theorem absent_attr_empty_column (fs : PyDict) (attr : PyStr) (idx : Nat)
    (hidx : CDRAttributes[idx]? = some attr)
    (habs : alookup fs attr = none)
    (hlast : rowVal (buildBody fs) statusCodeKey ≠ []) :
    csvRow (buildBody fs) = interComma (rowVals (buildBody fs)) ++ ['\n']
    ∧ (pySplit [','] (interComma (rowVals (buildBody fs))))[idx]? = some []
    ∧ alookup (buildBody fs) attr = none := by
  have hmem : attr ∈ CDRAttributes := List.getElem?_mem hidx
  have hnone : alookup (buildBody fs) attr = none := by
    rw [alookup_buildBody fs attr hmem]
    simp [projAttr, habs]
  refine ⟨csvRow_eq_inter _ hlast, ?_, hnone⟩
  have hsplit : pySplit [','] (interComma (rowVals (buildBody fs))) =
      rowVals (buildBody fs) := by
    apply split_interComma
    · rw [rowVals_decomp]
      simp
    · intro v hv
      rcases List.mem_map.mp (by simpa [rowVals] using hv) with ⟨a, ha, hva⟩
      rw [← hva]
      exact rowVal_no_comma _ a
  rw [hsplit]
  unfold rowVals
  rw [List.getElem?_map (rowVal (buildBody fs)) CDRAttributes idx, hidx]
  simp [rowVal, alookupD, hnone, pyStr, replaceComma]

/-- C10 witness: a record with `Caller` and `StatusCode` but no `Called`
serialises `Called` (column 2) as an empty field, and omits it from the flat
mapping. -/
theorem absent_attr_empty_column_witness :
    csvRow (buildBody fsW10) = interComma (rowVals (buildBody fsW10)) ++ ['\n']
    ∧ (pySplit [','] (interComma (rowVals (buildBody fsW10))))[(2 : Nat)]? = some []
    ∧ alookup (buildBody fsW10) calledKey = none :=
  absent_attr_empty_column fsW10 calledKey 2 (by decide) (by decide) (by decide)

/-- C10 counterexample: `StatusCode` (the final attribute, column 16) is
absent from a record that the merge appends, and its column position does not
exist in the written row at all — the trailing-comma strip removed it — so it
is not serialised as an empty string at that position. -/
theorem absent_trailing_attr_column_dropped :
    alookup fsNoSC statusCodeKey = none
    ∧ CDRAttributes[(16 : Nat)]? = some statusCodeKey
    ∧ mergeRecord [headerLine] (buildBody fsNoSC) = .ok [headerLine, csvRow (buildBody fsNoSC)]
    ∧ (pySplit [','] (csvRow (buildBody fsNoSC)))[(16 : Nat)]? = none :=
  ⟨by decide, by decide, by decide, by decide⟩
